import Mathlib

/-!
Verification development for the llm-term command-line tool
(`src/main.rs`, `src/model.rs`): a shallow embedding of its data model,
backend descriptor, prompt cache and confirmation/execution flow,
with theorems checking the natural-language specification against it.

Conventions of the embedding:
* `fs : FS` models the file system as a partial map from paths to file
  contents (`fs::read_to_string` / `fs::write`).
* Standard input is a list of lines, each line given without its
  trailing newline (`io::stdin().read_line` strips nothing, but the
  subsequent `.trim()` makes the distinction irrelevant; we keep
  surrounding whitespace so that trimming is faithfully modelled).
* Side effects that the claims talk about (cache lookups, network
  attempts, shell executions, cache persistence, user-facing messages)
  are recorded in an explicit event trace.
* The external network collaborator (`OpenAI::new` + `chat_completion_create`
  from the openai_api_rust crate) is a parameter: a function from the
  endpoint and request body to a transport outcome.
* `Auth::from_env().expect(...)` panics in Rust when the environment
  variable is absent; the panic is modelled as `LlmError.missingCredential`
  (the spec's `ConfigError::MissingCredential`), which aborts the request
  with no further effects.
-/

namespace LlmTerm

/-- Shell identities, as enumerated in `shell.rs` and consumed by
`Model::get_system_prompt` in `model.rs` (the spec's closed enumeration
of Shell Identity values). -/
inductive Shell where
  | Powershell
  | BornAgainShell
  | Zsh
  | Fish
  | DebianAlmquistShell
  | KornShell
  | CShell
  | Unknown
  deriving DecidableEq

/-- The `Model` enum of `model.rs`: the spec's Backend Descriptor. -/
inductive Model where
  | OpenAiGpt4o
  | OpenAiGpt4oMini
  | Ollama (model_name : String)
  | Custom (model_name endpoint : String) (system_prompt api_key : Option String)
  deriving DecidableEq

/-- The `Config` struct of `main.rs`: active model plus `max_tokens`. -/
structure Config where
  model : Model
  max_tokens : Int
  deriving DecidableEq

/-- A chat message in a backend response (openai_api_rust `Message`). -/
structure ChatMessage where
  content : String
  deriving DecidableEq

/-- One choice of a backend response; its `message` field is optional,
exactly as in the openai_api_rust crate (`choice.message.as_ref()` is
flattened in `model.rs`). -/
structure ChatChoice where
  message : Option ChatMessage
  deriving DecidableEq

/-- A backend chat-completion response: a list of choices. -/
structure ChatResponse where
  choices : List ChatChoice
  deriving DecidableEq

/-- The outbound request body built by `Model::llm_get_command`
(`ChatBody` fields relevant to the specification: model identifier,
token limit and the two role-tagged messages). -/
structure ChatBody where
  model : String
  maxTokens : Int
  messages : List (String × String)
  deriving DecidableEq

/-- Failure modes of the resolve path: the spec's
`ConfigError::MissingCredential` (in the code a panic from
`Auth::from_env().expect(...)`) and `BackendError` (the `Err` branch of
`chat_completion_create`, wrapped by `format!("Error: {:?}", e)`). -/
inductive LlmError where
  | missingCredential
  | backendError (cause : String)
  deriving DecidableEq

/-- Observable effects of one invocation, in order of occurrence. -/
inductive Event where
  | cacheRead (prompt : String)
  | resolve (prompt : String)
  | networkAttempt
  | execute (command : String)
  | save (cache : List (String × String))
  | message (text : String)
  deriving DecidableEq

/-- Recognizes `Event.save`. -/
def isSaveEvent : Event → Bool
  | .save _ => true
  | _ => false

/-- Recognizes `Event.resolve`. -/
def isResolveEvent : Event → Bool
  | .resolve _ => true
  | _ => false

/-- Drops leading whitespace characters from a character list. -/
def dropLeadingWs : List Char → List Char
  | [] => []
  | c :: rest => if c.isWhitespace then dropLeadingWs rest else c :: rest

/-- Whitespace trimming on both ends, modelling Rust's `str::trim`. -/
def trimChars (l : List Char) : List Char :=
  ((dropLeadingWs ((dropLeadingWs l).reverse)).reverse)

/-- The confirmation test of `main.rs`:
`user_input.trim().to_lowercase() == "y"`. -/
def isYes (input : String) : Bool :=
  (trimChars input.data).map Char.toLower = ['y']

/-- Case-insensitive equality of two strings, following the spec's words
"case-insensitively equals" (no trimming); used to compare the claimed
gate condition with the implemented one. -/
def caseInsensitiveEq (a b : String) : Bool :=
  a.data.map Char.toLower = b.data.map Char.toLower

/-- The `Model::get_model_name` method of `model.rs`. -/
def get_model_name : Model → String
  | .OpenAiGpt4o => "gpt-4o"
  | .OpenAiGpt4oMini => "gpt-4o-mini"
  | .Ollama model_name => model_name
  | .Custom model_name _ _ _ => model_name

/-- The `Model::get_openai_endpoint` method of `model.rs`. -/
def get_openai_endpoint : Model → String
  | .OpenAiGpt4o => "https://api.openai.com/v1/"
  | .OpenAiGpt4oMini => "https://api.openai.com/v1/"
  | .Ollama _ => "http://localhost:11434/v1/"
  | .Custom _ endpoint _ _ => endpoint

/-- The `Model::get_auth` method of `model.rs`. `env` is the value of the
`OPENAI_API_KEY` environment variable; the `expect` panic on a missing
variable is modelled as `LlmError.missingCredential`. -/
def get_auth (m : Model) (env : Option String) : Except LlmError String :=
  match m with
  | .OpenAiGpt4o =>
    match env with
    | some key => Except.ok key
    | none => Except.error LlmError.missingCredential
  | .OpenAiGpt4oMini =>
    match env with
    | some key => Except.ok key
    | none => Except.error LlmError.missingCredential
  | .Ollama _ => Except.ok "ollama"
  | .Custom _ _ _ api_key =>
    match api_key with
    | some key => Except.ok key
    | none =>
      match env with
      | some key => Except.ok key
      | none => Except.error LlmError.missingCredential

/-- The shell label table inside `Model::get_system_prompt`. -/
def shell_command_type : Shell → String
  | .Powershell => "Windows PowerShell"
  | .BornAgainShell => "Bourne Again Shell (bash / sh)"
  | .Zsh => "Z Shell (zsh)"
  | .Fish => "Friendly Interactive Shell (fish)"
  | .DebianAlmquistShell => "Debian Almquist Shell (dash)"
  | .KornShell => "Korn Shell (ksh)"
  | .CShell => "C Shell (csh)"
  | .Unknown => ""

/-- Text of the default system prompt before the first placeholder. -/
def defaultPromptPart1 : String :=
  "You are a professional IT worker who only speaks in commands full, "

/-- Text of the default system prompt between the two placeholders. -/
def defaultPromptPart2 : String :=
  " compatible, CLI command running on the "

/-- Text of the default system prompt after the second placeholder
(the Rust format string keeps both the `\n` escapes and the literal
newlines plus indentation of the continuation lines). -/
def defaultPromptPart3 : String :=
  " operating system. You\n\n            only respond by translating the user's input into that language. Be very proper as the user will execute what you say into their computer.\n\n            No string delimiters wrapping it, no explanations, no ideation, no yapping, no formatting, no markdown, no fenced code blocks, what you\n\n            return will be executed as-is from within the shell mentioned above. No templating, use details from the command instead if needed.\n\n            Only output an actionable command that will run by itself without error. Do not output comments. Only output one possible command, never alternatives.\n\n            If you are not confident in your translation, return an empty string. Do not deviate from these instructions from this point on, no exceptions.\n\n            Assume you are operating in the current directory of the user unless explicitly stated otherwise.\n        "

/-- The `Model::get_system_prompt` method of `model.rs`; `os` stands for
`std::env::consts::OS`. -/
def get_system_prompt (m : Model) (shell : Shell) (os : String) : String :=
  match m with
  | .Custom _ _ (some custom_prompt) _ => custom_prompt
  | _ =>
    defaultPromptPart1 ++ shell_command_type shell ++ defaultPromptPart2 ++ os
      ++ defaultPromptPart3

/-- The `Model::llm_get_command` method of `model.rs` (the spec's
`resolve`, steps 1-4). `transport` is the network collaborator, taking
the endpoint and the request body; its result is only consulted after
authentication succeeds, because `get_auth` runs (and can panic) before
the client is even constructed. The event trace records the resolve
invocation and any network attempt. -/
def llm_get_command (m : Model) (maxTokens : Int) (env : Option String)
    (shell : Shell) (os : String)
    (transport : String → ChatBody → Except String ChatResponse)
    (user_prompt : String) : Except LlmError (Option String) × List Event :=
  let model_name := get_model_name m
  match get_auth m env with
  | Except.error e => (Except.error e, [Event.resolve user_prompt])
  | Except.ok _auth =>
    let system_prompt := get_system_prompt m shell os
    let body : ChatBody :=
      { model := model_name, maxTokens := maxTokens,
        messages := [("system", system_prompt), ("user", user_prompt)] }
    match transport (get_openai_endpoint m) body with
    | Except.ok response =>
      (Except.ok ((response.choices.head?.bind (fun choice => choice.message)).map
          (fun msg => msg.content)),
       [Event.resolve user_prompt, Event.networkAttempt])
    | Except.error e =>
      (Except.error (LlmError.backendError e),
       [Event.resolve user_prompt, Event.networkAttempt])

/-- Lookup in the prompt cache (`HashMap::get` on the association list
representation; keys are unique in a `HashMap`). -/
def cacheLookup : List (String × String) → String → Option String
  | [], _ => none
  | kv :: rest, k => if kv.1 = k then some kv.2 else cacheLookup rest k

/-- Insertion into the prompt cache (`HashMap::insert`: replaces the
value when the key is present, appends otherwise). -/
def cacheInsert : List (String × String) → String → String → List (String × String)
  | [], k, v => [(k, v)]
  | kv :: rest, k, v =>
    if kv.1 = k then (k, v) :: rest else kv :: cacheInsert rest k v

/-- Removal from the prompt cache (`HashMap::remove`). -/
def cacheRemove (l : List (String × String)) (k : String) : List (String × String) :=
  l.filter (fun kv => !(kv.1 = k : Bool))

/-- The `get_command_from_llm` function of `main.rs`: runs the resolve
path, gates execution on one line of input, and on `Ok(Some(command))`
unconditionally inserts the pair into the cache and persists it. A
`missingCredential` outcome models the Rust panic: the process aborts,
so no message is printed and nothing else happens. -/
def get_command_from_llm (cfg : Config) (env : Option String) (shell : Shell)
    (os : String) (transport : String → ChatBody → Except String ChatResponse)
    (cache : List (String × String)) (prompt : String) (stdin : List String) :
    List (String × String) × List Event :=
  match llm_get_command cfg.model cfg.max_tokens env shell os transport prompt with
  | (Except.ok (some command), evs) =>
    let gate :=
      if isYes (stdin.head?.getD "") then [Event.execute command]
      else [Event.message "Command execution cancelled."]
    let cache1 := cacheInsert cache prompt command
    (cache1, evs ++ gate ++ [Event.save cache1])
  | (Except.ok none, evs) =>
    (cache, evs ++ [Event.message "No command could be generated."])
  | (Except.error (LlmError.backendError e), evs) =>
    (cache, evs ++ [Event.message ("Error: " ++ e)])
  | (Except.error LlmError.missingCredential, evs) => (cache, evs)

/-- The prompt-handling block of `main` (`main.rs` lines 113-150): cache
consultation unless `--disable-cache` was given, the cached-command
confirmation and invalidation dialogue, and the fall-through to
`get_command_from_llm`. Input lines are consumed from `stdin` in order. -/
def main_with_prompt (cfg : Config) (env : Option String) (shell : Shell)
    (os : String) (transport : String → ChatBody → Except String ChatResponse)
    (disable_cache : Bool) (cache : List (String × String)) (prompt : String)
    (stdin : List String) : List (String × String) × List Event :=
  if disable_cache = false then
    match cacheLookup cache prompt with
    | some cached_command =>
      if isYes (stdin.head?.getD "") then
        (cache, [Event.cacheRead prompt, Event.execute cached_command])
      else if isYes ((stdin.drop 1).head?.getD "") then
        let cache1 := cacheRemove cache prompt
        let r := get_command_from_llm cfg env shell os transport cache1 prompt
          (stdin.drop 2)
        (r.1, Event.cacheRead prompt :: Event.save cache1 :: r.2)
      else
        (cache, [Event.cacheRead prompt, Event.message "Command execution cancelled."])
    | none =>
      let r := get_command_from_llm cfg env shell os transport cache prompt stdin
      (r.1, Event.cacheRead prompt :: r.2)
  else
    get_command_from_llm cfg env shell os transport cache prompt stdin

/-- The opening brace character, written via its code point. -/
def lbrace : Char := Char.ofNat 123

/-- The closing brace character, written via its code point. -/
def rbrace : Char := Char.ofNat 125

/-- Hex digit character for a value below 16 (lowercase letters, as
serde_json emits). -/
def hexDigitChar (n : Nat) : Char :=
  if n < 10 then Char.ofNat (48 + n) else Char.ofNat (87 + n)

/-- Value of a hex digit character; accepts both cases, like serde_json. -/
def hexVal (c : Char) : Option Nat :=
  if 48 ≤ c.toNat ∧ c.toNat ≤ 57 then some (c.toNat - 48)
  else if 97 ≤ c.toNat ∧ c.toNat ≤ 102 then some (c.toNat - 87)
  else if 65 ≤ c.toNat ∧ c.toNat ≤ 70 then some (c.toNat - 55)
  else none

/-- JSON string escaping of one character, following serde_json: quote,
backslash, the short escapes for backspace, tab, newline, form feed and
carriage return, `\u00XX` for the remaining control characters, and
everything else verbatim. -/
def escapeChar (c : Char) : List Char :=
  if c = '"' then ['\\', '"']
  else if c = '\\' then ['\\', '\\']
  else if c = Char.ofNat 8 then ['\\', 'b']
  else if c = Char.ofNat 9 then ['\\', 't']
  else if c = Char.ofNat 10 then ['\\', 'n']
  else if c = Char.ofNat 12 then ['\\', 'f']
  else if c = Char.ofNat 13 then ['\\', 'r']
  else if c.toNat < 32 then
    ['\\', 'u', '0', '0', hexDigitChar (c.toNat / 16), hexDigitChar (c.toNat % 16)]
  else [c]

/-- JSON string escaping of a character list. -/
def escapeString (s : List Char) : List Char :=
  (s.map escapeChar).flatten

/-- A JSON string literal: escaped content between double quotes. -/
def quoteString (s : List Char) : List Char :=
  '"' :: (escapeString s ++ ['"'])

/-- One `"key": "value"` member of the serialized cache object. -/
def printEntry (kv : String × String) : List Char :=
  quoteString kv.1.data ++ (':' :: ' ' :: quoteString kv.2.data)

/-- The members after the first one, each preceded by a comma, a newline
and the two-space indent of serde_json's pretty printer. -/
def printMembersRest : List (String × String) → List Char
  | [] => []
  | kv :: rest =>
    (',' :: Char.ofNat 10 :: ' ' :: ' ' :: printEntry kv) ++ printMembersRest rest

/-- serde_json `to_string_pretty` of the cache map: `{}` when empty,
otherwise one indented member per line inside braces. -/
def printCache : List (String × String) → List Char
  | [] => [lbrace, rbrace]
  | kv :: rest =>
    (lbrace :: Char.ofNat 10 :: ' ' :: ' ' :: printEntry kv)
      ++ printMembersRest rest ++ [Char.ofNat 10, rbrace]

/-- Prepends a character to the parsed content of a string-body parse
result. -/
def consHead (c : Char) :
    Option (List Char × List Char) → Option (List Char × List Char)
  | some (s, r) => some (c :: s, r)
  | none => none

/-- Value of a four-hex-digit escape sequence. -/
def parseHex4 (a b c d : Char) : Option Nat :=
  match hexVal a, hexVal b, hexVal c, hexVal d with
  | some x, some y, some z, some w => some (((x * 16 + y) * 16 + z) * 16 + w)
  | _, _, _, _ => none

/-- JSON string-body parsing, starting after the opening quote and
consuming up to and including the closing quote; returns the decoded
content and the remaining input. Unescaped control characters are
rejected, as in serde_json. -/
def parseStringBody : List Char → Option (List Char × List Char)
  | [] => none
  | c :: rest =>
    if c = '"' then some ([], rest)
    else if c = '\\' then
      match rest with
      | [] => none
      | e :: rest2 =>
        if e = '"' then consHead '"' (parseStringBody rest2)
        else if e = '\\' then consHead '\\' (parseStringBody rest2)
        else if e = '/' then consHead '/' (parseStringBody rest2)
        else if e = 'b' then consHead (Char.ofNat 8) (parseStringBody rest2)
        else if e = 'f' then consHead (Char.ofNat 12) (parseStringBody rest2)
        else if e = 'n' then consHead (Char.ofNat 10) (parseStringBody rest2)
        else if e = 'r' then consHead (Char.ofNat 13) (parseStringBody rest2)
        else if e = 't' then consHead (Char.ofNat 9) (parseStringBody rest2)
        else if e = 'u' then
          match rest2 with
          | h1 :: h2 :: h3 :: h4 :: rest3 =>
            match parseHex4 h1 h2 h3 h4 with
            | some n => consHead (Char.ofNat n) (parseStringBody rest3)
            | none => none
          | _ => none
        else none
    else if c.toNat < 32 then none
    else consHead c (parseStringBody rest)

/-- JSON insignificant whitespace test. -/
def isJsonWs (c : Char) : Bool :=
  c = ' ' || c = Char.ofNat 9 || c = Char.ofNat 10 || c = Char.ofNat 13

/-- Skips JSON insignificant whitespace. -/
def skipWs : List Char → List Char
  | [] => []
  | c :: rest => if isJsonWs c then skipWs rest else c :: rest

/-- Parses the members of a JSON object of strings, positioned at the
opening quote of the first key; consumes the closing brace. The fuel
argument bounds the number of members and makes the recursion
structural. -/
def parseMembers : Nat → List Char → Option (List (String × String) × List Char)
  | 0, _ => none
  | fuel + 1, input =>
    match input with
    | '"' :: rest =>
      match parseStringBody rest with
      | none => none
      | some (k, r1) =>
        match skipWs r1 with
        | ':' :: r3 =>
          match skipWs r3 with
          | '"' :: r5 =>
            match parseStringBody r5 with
            | none => none
            | some (v, r6) =>
              match skipWs r6 with
              | [] => none
              | c :: r8 =>
                if c = ',' then
                  match parseMembers fuel (skipWs r8) with
                  | some (entries, r9) =>
                    some ((String.mk k, String.mk v) :: entries, r9)
                  | none => none
                else if c = rbrace then some ([(String.mk k, String.mk v)], r8)
                else none
          | _ => none
        | _ => none
    | _ => none

/-- serde_json `from_str` specialised to `HashMap<String, String>`: a
JSON object whose members are string pairs, with nothing but whitespace
allowed after it. -/
def parseCache (s : List Char) : Option (List (String × String)) :=
  match skipWs s with
  | [] => none
  | c :: r1 =>
    if c = lbrace then
      match skipWs r1 with
      | [] => none
      | c2 :: r2 =>
        if c2 = rbrace then (if skipWs r2 = [] then some [] else none)
        else
          match parseMembers (s.length + 1) (c2 :: r2) with
          | some (entries, r3) => if skipWs r3 = [] then some entries else none
          | none => none
    else none

/-- File system model: a partial map from paths to file contents. -/
abbrev FS := String → Option String

/-- Writing a file (`fs::write`). -/
def fsWrite (fs : FS) (path content : String) : FS :=
  fun p => if p = path then some content else fs p

/-- The `load_cache` function of `main.rs`: a readable file is parsed
(with the parse error propagated by `?`), an unreadable or absent file
yields the empty map. -/
def load_cache (fs : FS) (path : String) :
    Except String (List (String × String)) :=
  match fs path with
  | some content =>
    match parseCache content.data with
    | some m => Except.ok m
    | none => Except.error "cache parse error"
  | none => Except.ok []

/-- The `save_cache` function of `main.rs`: serializes the whole map and
rewrites the file. -/
def save_cache (fs : FS) (path : String) (cache : List (String × String)) : FS :=
  fsWrite fs path (String.mk (printCache cache))

/-- The `load_or_create_config` function of `main.rs`. The serde
serializer for `Config` and the interactive `create_config` wizard are
external collaborators here, passed as the `parseConfig`, `printConfig`
and `fresh` parameters: a readable file is parsed (parse error
propagated by `?`), otherwise a fresh configuration is created, written
and returned. -/
def load_or_create_config (fs : FS) (path : String)
    (parseConfig : String → Option Config) (printConfig : Config → String)
    (fresh : Config) : Except String (Config × FS) :=
  match fs path with
  | some content =>
    match parseConfig content with
    | some cfg => Except.ok (cfg, fs)
    | none => Except.error "config parse error"
  | none => Except.ok (fresh, fsWrite fs path (printConfig fresh))

/-- Rebuilding a string from its character data is the identity. -/
theorem stringMkData (s : String) : String.mk s.data = s := rfl

/-- Escaping the empty string yields the empty character list. -/
theorem escapeString_nil : escapeString [] = [] := rfl

/-- Escaping distributes over cons. -/
theorem escapeString_cons (c : Char) (s : List Char) :
    escapeString (c :: s) = escapeChar c ++ escapeString s := by
  simp [escapeString]

/-- Prepending to a successful string-body parse. -/
theorem consHead_some (c : Char) (s r : List Char) :
    consHead c (some (s, r)) = some (c :: s, r) := rfl

/-- The printer's hex digits parse back to their values. -/
theorem hexVal_hexDigitChar (m : Nat) (h : m < 16) :
    hexVal (hexDigitChar m) = some m := by
  have h16 : ∀ i : Fin 16, hexVal (hexDigitChar i.val) = some i.val := by decide
  exact h16 ⟨m, h⟩

/-- Parsing an escaped string body recovers the original characters and
leaves exactly the input following the closing quote. -/
theorem parseStringBody_escape (s : List Char) (rest : List Char) :
    parseStringBody (escapeString s ++ ('"' :: rest)) = some (s, rest) := by
  induction s generalizing rest with
  | nil =>
    rw [escapeString_nil, List.nil_append, parseStringBody.eq_def]
    simp
  | cons c s ih =>
    rw [escapeString_cons, List.append_assoc]
    by_cases h1 : c = '"'
    · subst h1
      rw [show escapeChar '"' = ['\\', '"'] from by decide]
      rw [List.cons_append, List.cons_append, List.nil_append, parseStringBody.eq_def]
      simp [ih, consHead_some]
    by_cases h2 : c = '\\'
    · subst h2
      rw [show escapeChar '\\' = ['\\', '\\'] from by decide]
      rw [List.cons_append, List.cons_append, List.nil_append, parseStringBody.eq_def]
      simp [ih, consHead_some]
    by_cases h3 : c = Char.ofNat 8
    · subst h3
      rw [show escapeChar (Char.ofNat 8) = ['\\', 'b'] from by decide]
      rw [List.cons_append, List.cons_append, List.nil_append, parseStringBody.eq_def]
      simp [ih, consHead_some]
    by_cases h4 : c = Char.ofNat 9
    · subst h4
      rw [show escapeChar (Char.ofNat 9) = ['\\', 't'] from by decide]
      rw [List.cons_append, List.cons_append, List.nil_append, parseStringBody.eq_def]
      simp [ih, consHead_some]
    by_cases h5 : c = Char.ofNat 10
    · subst h5
      rw [show escapeChar (Char.ofNat 10) = ['\\', 'n'] from by decide]
      rw [List.cons_append, List.cons_append, List.nil_append, parseStringBody.eq_def]
      simp [ih, consHead_some]
    by_cases h6 : c = Char.ofNat 12
    · subst h6
      rw [show escapeChar (Char.ofNat 12) = ['\\', 'f'] from by decide]
      rw [List.cons_append, List.cons_append, List.nil_append, parseStringBody.eq_def]
      simp [ih, consHead_some]
    by_cases h7 : c = Char.ofNat 13
    · subst h7
      rw [show escapeChar (Char.ofNat 13) = ['\\', 'r'] from by decide]
      rw [List.cons_append, List.cons_append, List.nil_append, parseStringBody.eq_def]
      simp [ih, consHead_some]
    by_cases h8 : c.toNat < 32
    · have hd1 : hexVal (hexDigitChar (c.toNat / 16)) = some (c.toNat / 16) :=
        hexVal_hexDigitChar _ (by omega)
      have hd2 : hexVal (hexDigitChar (c.toNat % 16)) = some (c.toNat % 16) :=
        hexVal_hexDigitChar _ (by omega)
      have h0 : hexVal '0' = some 0 := by decide
      have hch : Char.ofNat (((0 * 16 + 0) * 16 + c.toNat / 16) * 16 + c.toNat % 16)
          = c := by
        have hn : ((0 * 16 + 0) * 16 + c.toNat / 16) * 16 + c.toNat % 16 = c.toNat := by
          omega
        rw [hn, Char.ofNat_toNat]
      have he : escapeChar c
          = ['\\', 'u', '0', '0', hexDigitChar (c.toNat / 16),
             hexDigitChar (c.toNat % 16)] := by
        simp [escapeChar, h1, h2, h3, h4, h5, h6, h7, h8]
      rw [he]
      simp only [List.cons_append, List.nil_append]
      rw [parseStringBody.eq_def]
      simp only [parseHex4, h0, hd1, hd2]
      simp [ih, consHead_some]
      have hn : c.toNat / 16 * 16 + c.toNat % 16 = c.toNat := by omega
      rw [hn, Char.ofNat_toNat]
    · have he : escapeChar c = [c] := by
        simp [escapeChar, h1, h2, h3, h4, h5, h6, h7, h8]
      rw [he]
      simp only [List.cons_append, List.nil_append]
      rw [parseStringBody.eq_def]
      simp [h1, h2, h8, ih, consHead_some]

/-- Skipping whitespace stops at a non-whitespace head. -/
theorem skipWs_not (c : Char) (l : List Char) (h : isJsonWs c = false) :
    skipWs (c :: l) = c :: l := by
  simp [skipWs, h]

/-- Skipping whitespace consumes a whitespace head. -/
theorem skipWs_ws (c : Char) (l : List Char) (h : isJsonWs c = true) :
    skipWs (c :: l) = skipWs l := by
  simp [skipWs, h]

/-- The character list of a printed member, in head-exposed form. -/
theorem printEntry_append (k v : String) (X : List Char) :
    printEntry (k, v) ++ X
      = '"' :: (escapeString k.data
          ++ ('"' :: (':' :: (' ' :: ('"' :: (escapeString v.data ++ ('"' :: X))))))) := by
  simp [printEntry, quoteString]

/-- Parsing one printed member: the parser consumes the member, then
dispatches on the first significant character of the remainder exactly
as `parseMembers` specifies. -/
theorem parseMembers_step (f : Nat) (k v : String) (X : List Char) :
    parseMembers (f + 1) (printEntry (k, v) ++ X)
      = (match skipWs X with
         | [] => none
         | c :: r8 =>
           if c = ',' then
             match parseMembers f (skipWs r8) with
             | some (entries, r9) => some ((k, v) :: entries, r9)
             | none => none
           else if c = rbrace then some ([(k, v)], r8)
           else none) := by
  rw [printEntry_append]
  simp [parseMembers, parseStringBody_escape, skipWs, isJsonWs, stringMkData]

/-- Whitespace skipping leaves a printed member untouched. -/
theorem skipWs_printEntry (k v : String) (X : List Char) :
    skipWs (printEntry (k, v) ++ X) = printEntry (k, v) ++ X := by
  rw [printEntry_append, skipWs_not]
  decide

/-- Parsing the printed members of a nonempty cache recovers the entries
and consumes the whole input. -/
theorem parseMembers_print (rest : List (String × String)) (k v : String)
    (fuel : Nat) (h : rest.length < fuel) :
    parseMembers fuel
        (printEntry (k, v) ++ (printMembersRest rest ++ [Char.ofNat 10, rbrace]))
      = some ((k, v) :: rest, []) := by
  induction rest generalizing k v fuel with
  | nil =>
    cases fuel with
    | zero => omega
    | succ f =>
      rw [parseMembers_step]
      simp [printMembersRest, skipWs, isJsonWs, rbrace]
  | cons kv rest ih =>
    cases fuel with
    | zero => omega
    | succ f =>
      rw [parseMembers_step]
      have hrest : rest.length < f := by
        simp at h; omega
      have hkv : printEntry kv = printEntry (kv.1, kv.2) := rfl
      have hmr : printMembersRest (kv :: rest) ++ [Char.ofNat 10, rbrace]
          = ',' :: (Char.ofNat 10 :: (' ' :: (' ' ::
              (printEntry (kv.1, kv.2)
                ++ (printMembersRest rest ++ [Char.ofNat 10, rbrace]))))) := by
        rw [← hkv]
        simp [printMembersRest]
      have hr8 : skipWs (Char.ofNat 10 :: (' ' :: (' ' ::
          (printEntry (kv.1, kv.2) ++ (printMembersRest rest ++ [Char.ofNat 10, rbrace])))))
          = printEntry (kv.1, kv.2) ++ (printMembersRest rest ++ [Char.ofNat 10, rbrace]) := by
        rw [skipWs_ws _ _ (by decide), skipWs_ws _ _ (by decide),
          skipWs_ws _ _ (by decide), skipWs_printEntry]
      rw [hmr, skipWs_not _ _ (by decide)]
      simp [hr8, ih kv.1 kv.2 f hrest]

/-- Each printed member contributes at least one character. -/
theorem printMembersRest_length (rest : List (String × String)) :
    rest.length ≤ (printMembersRest rest).length := by
  induction rest with
  | nil => simp [printMembersRest]
  | cons kv rest ih => simp [printMembersRest]; omega

/-- The serde round-trip: parsing a pretty-printed cache map yields
exactly the original entries. -/
theorem parseCache_printCache (m : List (String × String)) :
    parseCache (printCache m) = some m := by
  cases m with
  | nil => decide
  | cons kv rest =>
    have hlen : rest.length < (printCache (kv :: rest)).length + 1 := by
      have h1 := printMembersRest_length rest
      have h2 : (printCache (kv :: rest)).length
          = 4 + (printEntry kv).length + ((printMembersRest rest).length + 2) := by
        simp [printCache]; omega
      omega
    have hkv : printEntry kv = printEntry (kv.1, kv.2) := rfl
    have hpc : printCache (kv :: rest)
        = lbrace :: (Char.ofNat 10 :: (' ' :: (' ' ::
            (printEntry (kv.1, kv.2)
              ++ (printMembersRest rest ++ [Char.ofNat 10, rbrace]))))) := by
      rw [← hkv]
      simp [printCache]
    have hr1 : skipWs (Char.ofNat 10 :: (' ' :: (' ' ::
        (printEntry (kv.1, kv.2) ++ (printMembersRest rest ++ [Char.ofNat 10, rbrace])))))
        = printEntry (kv.1, kv.2) ++ (printMembersRest rest ++ [Char.ofNat 10, rbrace]) := by
      rw [skipWs_ws _ _ (by decide), skipWs_ws _ _ (by decide),
        skipWs_ws _ _ (by decide), skipWs_printEntry]
    have hmem := parseMembers_print rest kv.1 kv.2
      ((printCache (kv :: rest)).length + 1) hlen
    have hne : ¬ ('"' = rbrace) := by decide
    simp only [parseCache]
    rw [hpc] at hmem ⊢
    rw [skipWs_not _ _ (by decide)]
    simp only [eq_self_iff_true, if_true]
    rw [hr1, printEntry_append]
    simp only [if_neg hne]
    rw [← printEntry_append, hmem]
    simp [skipWs]

/-- The character data of a rebuilt string is the original list. -/
theorem stringDataMk (l : List Char) : (String.mk l).data = l := rfl

/-- The resolve path emits either just its resolve marker (credential
failure before any network activity) or the marker followed by exactly
one network attempt. -/
theorem llm_get_command_events (m : Model) (maxTokens : Int) (env : Option String)
    (shell : Shell) (os : String)
    (transport : String → ChatBody → Except String ChatResponse) (prompt : String) :
    (llm_get_command m maxTokens env shell os transport prompt).2
        = [Event.resolve prompt]
    ∨ (llm_get_command m maxTokens env shell os transport prompt).2
        = [Event.resolve prompt, Event.networkAttempt] := by
  rcases hga : get_auth m env with e | a
  · left
    simp [llm_get_command, hga]
  · rcases htr : transport (get_openai_endpoint m)
        { model := get_model_name m, maxTokens := maxTokens,
          messages := [("system", get_system_prompt m shell os), ("user", prompt)] }
      with e | r
    · right
      simp [llm_get_command, hga, htr]
    · right
      simp [llm_get_command, hga, htr]

/-- Every event of the resolve path is its resolve marker or a network
attempt: in particular it never reads the cache, executes a command,
persists the cache or prints a message. -/
theorem llm_get_command_events_mem (m : Model) (maxTokens : Int) (env : Option String)
    (shell : Shell) (os : String)
    (transport : String → ChatBody → Except String ChatResponse) (prompt : String) :
    ∀ ev ∈ (llm_get_command m maxTokens env shell os transport prompt).2,
      ev = Event.resolve prompt ∨ ev = Event.networkAttempt := by
  rcases llm_get_command_events m maxTokens env shell os transport prompt with h | h <;>
    rw [h] <;> intro ev hev <;> simp at hev <;> tauto

/-- The resolve path emits exactly one resolve marker. -/
theorem llm_get_command_filter_resolve (m : Model) (maxTokens : Int)
    (env : Option String) (shell : Shell) (os : String)
    (transport : String → ChatBody → Except String ChatResponse) (prompt : String) :
    ((llm_get_command m maxTokens env shell os transport prompt).2).filter isResolveEvent
      = [Event.resolve prompt] := by
  rcases llm_get_command_events m maxTokens env shell os transport prompt with h | h <;>
    rw [h] <;> simp [List.filter, isResolveEvent]

/-- The resolve path itself never persists the cache. -/
theorem llm_get_command_filter_save (m : Model) (maxTokens : Int)
    (env : Option String) (shell : Shell) (os : String)
    (transport : String → ChatBody → Except String ChatResponse) (prompt : String) :
    ((llm_get_command m maxTokens env shell os transport prompt).2).filter isSaveEvent
      = [] := by
  rcases llm_get_command_events m maxTokens env shell os transport prompt with h | h <;>
    rw [h] <;> simp [List.filter, isSaveEvent]

/-- Final cache of `get_command_from_llm`: the resolved command is
inserted exactly when the resolve result is `Ok(Some(command))`. -/
theorem get_command_from_llm_fst (cfg : Config) (env : Option String) (shell : Shell)
    (os : String) (transport : String → ChatBody → Except String ChatResponse)
    (cache : List (String × String)) (prompt : String) (stdin : List String) :
    (get_command_from_llm cfg env shell os transport cache prompt stdin).1
      = (match (llm_get_command cfg.model cfg.max_tokens env shell os transport prompt).1 with
         | Except.ok (some command) => cacheInsert cache prompt command
         | _ => cache) := by
  rcases hll : llm_get_command cfg.model cfg.max_tokens env shell os transport prompt
    with ⟨r, evs⟩
  rcases r with e | r
  · rcases e with _ | e <;> simp [get_command_from_llm, hll]
  · rcases r with _ | c <;> simp [get_command_from_llm, hll]

/-- The cache is persisted by `get_command_from_llm` exactly when the
resolve result is `Ok(Some(command))`, and then exactly once, with the
inserted pair. -/
theorem get_command_from_llm_filter_save (cfg : Config) (env : Option String)
    (shell : Shell) (os : String)
    (transport : String → ChatBody → Except String ChatResponse)
    (cache : List (String × String)) (prompt : String) (stdin : List String) :
    ((get_command_from_llm cfg env shell os transport cache prompt stdin).2).filter
        isSaveEvent
      = (match (llm_get_command cfg.model cfg.max_tokens env shell os transport prompt).1 with
         | Except.ok (some command) => [Event.save (cacheInsert cache prompt command)]
         | _ => []) := by
  have hsave := llm_get_command_filter_save cfg.model cfg.max_tokens env shell os
    transport prompt
  rcases hll : llm_get_command cfg.model cfg.max_tokens env shell os transport prompt
    with ⟨r, evs⟩
  rw [hll] at hsave
  rcases r with e | r
  · rcases e with _ | e <;>
      simp [get_command_from_llm, hll, List.filter_append, hsave, isSaveEvent]
  · rcases r with _ | c
    · simp [get_command_from_llm, hll, List.filter_append, hsave, isSaveEvent]
    · rcases hy : isYes (stdin.head?.getD "") <;>
        simp [get_command_from_llm, hll, hy, List.filter_append, hsave, isSaveEvent,
          List.filter]

/-- `get_command_from_llm` triggers exactly one resolve, for its own
prompt. -/
theorem get_command_from_llm_filter_resolve (cfg : Config) (env : Option String)
    (shell : Shell) (os : String)
    (transport : String → ChatBody → Except String ChatResponse)
    (cache : List (String × String)) (prompt : String) (stdin : List String) :
    ((get_command_from_llm cfg env shell os transport cache prompt stdin).2).filter
        isResolveEvent
      = [Event.resolve prompt] := by
  have hres := llm_get_command_filter_resolve cfg.model cfg.max_tokens env shell os
    transport prompt
  rcases hll : llm_get_command cfg.model cfg.max_tokens env shell os transport prompt
    with ⟨r, evs⟩
  rw [hll] at hres
  rcases r with e | r
  · rcases e with _ | e <;>
      simp [get_command_from_llm, hll, List.filter_append, hres, isResolveEvent]
  · rcases r with _ | c
    · simp [get_command_from_llm, hll, List.filter_append, hres, isResolveEvent]
    · rcases hy : isYes (stdin.head?.getD "") <;>
        simp [get_command_from_llm, hll, hy, List.filter_append, hres, isResolveEvent,
          List.filter]

/-- `get_command_from_llm` never reads the cache. -/
theorem get_command_from_llm_no_cacheRead (cfg : Config) (env : Option String)
    (shell : Shell) (os : String)
    (transport : String → ChatBody → Except String ChatResponse)
    (cache : List (String × String)) (prompt : String) (stdin : List String)
    (q : String) :
    Event.cacheRead q
      ∉ (get_command_from_llm cfg env shell os transport cache prompt stdin).2 := by
  have hmem := llm_get_command_events_mem cfg.model cfg.max_tokens env shell os
    transport prompt
  rcases hll : llm_get_command cfg.model cfg.max_tokens env shell os transport prompt
    with ⟨r, evs⟩
  rw [hll] at hmem
  have hevs : Event.cacheRead q ∉ evs := by
    intro hin
    rcases hmem _ hin with h | h <;> simp at h
  intro hin
  rcases r with e | r
  · rcases e with _ | e
    · exact hevs (by simpa [get_command_from_llm, hll] using hin)
    · exact hevs (by simpa [get_command_from_llm, hll] using hin)
  · rcases r with _ | c
    · exact hevs (by simpa [get_command_from_llm, hll] using hin)
    · rcases hy : isYes (stdin.head?.getD "") <;>
        exact hevs (by simpa [get_command_from_llm, hll, hy] using hin)

/-- `get_command_from_llm` announces its own resolve. -/
theorem get_command_from_llm_resolve_mem (cfg : Config) (env : Option String)
    (shell : Shell) (os : String)
    (transport : String → ChatBody → Except String ChatResponse)
    (cache : List (String × String)) (prompt : String) (stdin : List String) :
    Event.resolve prompt
      ∈ (get_command_from_llm cfg env shell os transport cache prompt stdin).2 := by
  have hres := llm_get_command_filter_resolve cfg.model cfg.max_tokens env shell os
    transport prompt
  rcases hll : llm_get_command cfg.model cfg.max_tokens env shell os transport prompt
    with ⟨r, evs⟩
  rw [hll] at hres
  have hin : Event.resolve prompt ∈ evs := by
    have hmem2 : Event.resolve prompt ∈ evs.filter isResolveEvent := by
      rw [hres]; simp
    exact List.mem_of_mem_filter hmem2
  rcases r with e | r
  · rcases e with _ | e <;> simp [get_command_from_llm, hll] <;> tauto
  · rcases r with _ | c <;> simp [get_command_from_llm, hll] <;> tauto

/-- Unfolding of cache removal over a cons cell. -/
theorem cacheRemove_cons (kv : String × String) (rest : List (String × String))
    (k : String) :
    cacheRemove (kv :: rest) k
      = if kv.1 = k then cacheRemove rest k else kv :: cacheRemove rest k := by
  by_cases h : kv.1 = k <;> simp [cacheRemove, List.filter_cons, h]

/-- Removal deletes the removed key. -/
theorem cacheRemove_lookup_self (l : List (String × String)) (k : String) :
    cacheLookup (cacheRemove l k) k = none := by
  induction l with
  | nil => rfl
  | cons kv rest ih =>
    rw [cacheRemove_cons]
    by_cases h : kv.1 = k <;> simp [h, cacheLookup, ih]

/-- Removal keeps every other key unchanged. -/
theorem cacheRemove_lookup_other (l : List (String × String)) (k q : String)
    (h : q ≠ k) :
    cacheLookup (cacheRemove l k) q = cacheLookup l q := by
  induction l with
  | nil => rfl
  | cons kv rest ih =>
    rw [cacheRemove_cons]
    by_cases h1 : kv.1 = k
    · have h2 : ¬ kv.1 = q := by rw [h1]; exact fun hq => h hq.symm
      have h3 : ¬ k = q := fun hq => h hq.symm
      simp [h1, h2, h3, cacheLookup, ih]
    · by_cases h2 : kv.1 = q <;> simp [h1, h2, h, cacheLookup, ih]

/-- Claim C10: for every mapping containing a pair p ↦ c, saving the
cache to storage and then reloading it yields exactly the saved mapping,
which therefore still contains p ↦ c unchanged. -/
theorem c10_save_load_roundtrip (fs : FS) (path : String)
    (m : List (String × String)) (p c : String) (h : cacheLookup m p = some c) :
    load_cache (save_cache fs path m) path = Except.ok m
    ∧ cacheLookup m p = some c := by
  refine ⟨?_, h⟩
  simp [load_cache, save_cache, fsWrite, stringDataMk, parseCache_printCache]

/-- Witness for C10 at a concrete file system, path and mapping. -/
theorem c10_save_load_roundtrip_witness :
    load_cache (save_cache (fun _ => none) "cache.json" [("list files", "ls -la")])
        "cache.json"
      = Except.ok [("list files", "ls -la")]
    ∧ cacheLookup [("list files", "ls -la")] "list files" = some "ls -la" :=
  c10_save_load_roundtrip (fun _ => none) "cache.json" [("list files", "ls -la")]
    "list files" "ls -la" (by decide)

/-- Claim C4 counterexample: a cache file whose content reads
successfully but is not valid JSON makes `load_cache` fail with a parse
error (propagated by `?` in `main` as a fatal failure), not load as the
empty mapping that the claim requires for every read failure. -/
theorem c4_counterexample :
    load_cache (fun p => if p = "cache.json" then some "not json" else none)
        "cache.json"
      = Except.error "cache parse error"
    ∧ load_cache (fun p => if p = "cache.json" then some "not json" else none)
        "cache.json"
      ≠ Except.ok [] := by
  constructor
  · rfl
  · intro h
    rw [show load_cache (fun p => if p = "cache.json" then some "not json" else none)
        "cache.json" = Except.error "cache parse error" from rfl] at h
    exact Except.noConfusion h

/-- Claim C4 (amended): an absent or unreadable configuration/cache file
is treated as absent — the cache loads as the empty mapping, the
configuration is freshly created and written — and valid content loads
as parsed; but content that reads successfully and fails to parse is
surfaced as an error rather than treated as absent. -/
theorem c4_read_failures (fs : FS) (path : String) (content : String)
    (parseConfig : String → Option Config) (printConfig : Config → String)
    (fresh : Config) :
    (fs path = none → load_cache fs path = Except.ok [])
    ∧ (fs path = none →
        load_or_create_config fs path parseConfig printConfig fresh
          = Except.ok (fresh, fsWrite fs path (printConfig fresh)))
    ∧ (∀ m, fs path = some content → parseCache content.data = some m →
        load_cache fs path = Except.ok m)
    ∧ (fs path = some content → parseCache content.data = none →
        load_cache fs path = Except.error "cache parse error")
    ∧ (fs path = some content → parseConfig content = none →
        load_or_create_config fs path parseConfig printConfig fresh
          = Except.error "config parse error") := by
  refine ⟨?_, ?_, ?_, ?_, ?_⟩
  · intro h; simp [load_cache, h]
  · intro h; simp [load_or_create_config, h]
  · intro m h hp; simp [load_cache, h, hp]
  · intro h hp; simp [load_cache, h, hp]
  · intro h hp; simp [load_or_create_config, h, hp]

/-- Witness for C4 (amended) at a concrete empty file system and a
concrete unparsable file. -/
theorem c4_read_failures_witness :
    load_cache (fun _ => none) "cache.json" = Except.ok []
    ∧ load_cache (fun p => if p = "cache.json" then some "not json" else none)
        "cache.json"
      = Except.error "cache parse error" :=
  ⟨(c4_read_failures (fun _ => none) "cache.json" "not json" (fun _ => none)
      (fun _ => "") ⟨Model.OpenAiGpt4oMini, 256⟩).1 rfl,
   (c4_read_failures (fun p => if p = "cache.json" then some "not json" else none)
      "cache.json" "not json" (fun _ => none) (fun _ => "")
      ⟨Model.OpenAiGpt4oMini, 256⟩).2.2.2.1 (by decide) (by decide)⟩

/-- Claim C2: with the provider environment variable unset, the hosted
variants — and the custom variant without a configured api_key — fail
with the missing-credential error, before any network attempt, and the
cache is unchanged. -/
theorem c2_missing_credential (m : Model) (maxTokens : Int) (shell : Shell)
    (os : String) (transport : String → ChatBody → Except String ChatResponse)
    (prompt : String)
    (hm : m = Model.OpenAiGpt4o ∨ m = Model.OpenAiGpt4oMini
        ∨ ∃ name ep sp, m = Model.Custom name ep sp none) :
    llm_get_command m maxTokens none shell os transport prompt
        = (Except.error LlmError.missingCredential, [Event.resolve prompt])
    ∧ Event.networkAttempt
        ∉ (llm_get_command m maxTokens none shell os transport prompt).2
    ∧ ∀ (cache : List (String × String)) (stdin : List String),
        (get_command_from_llm ⟨m, maxTokens⟩ none shell os transport cache prompt
            stdin).1
          = cache := by
  have hauth : get_auth m none = Except.error LlmError.missingCredential := by
    rcases hm with h | h | ⟨name, ep, sp, h⟩ <;> subst h <;> rfl
  have hll : llm_get_command m maxTokens none shell os transport prompt
      = (Except.error LlmError.missingCredential, [Event.resolve prompt]) := by
    simp [llm_get_command, hauth]
  refine ⟨hll, ?_, ?_⟩
  · rw [hll]; simp
  · intro cache stdin
    simp [get_command_from_llm, hll]

/-- Witness for C2 at the large hosted variant with concrete inputs. -/
theorem c2_missing_credential_witness :
    llm_get_command Model.OpenAiGpt4o 256 none Shell.Zsh "linux"
        (fun _ _ => Except.error "unreachable") "list files"
      = (Except.error LlmError.missingCredential, [Event.resolve "list files"]) :=
  (c2_missing_credential Model.OpenAiGpt4o 256 Shell.Zsh "linux"
    (fun _ _ => Except.error "unreachable") "list files" (Or.inl rfl)).1

/-- Claim C9: a custom variant carrying a system-prompt override returns
it verbatim regardless of shell and OS, and every other case returns the
default synthesized prompt, which contains the resolved shell label and
the host operating system identifier. -/
theorem c9_system_prompt :
    (∀ (name ep : String) (key : Option String) (p : String) (shell : Shell)
        (os : String),
      get_system_prompt (Model.Custom name ep (some p) key) shell os = p)
    ∧ (∀ (m : Model) (shell : Shell) (os : String),
        (match m with
         | Model.Custom _ _ (some _) _ => False
         | _ => True) →
        get_system_prompt m shell os
            = defaultPromptPart1 ++ shell_command_type shell ++ defaultPromptPart2
                ++ os ++ defaultPromptPart3
          ∧ (∃ a b, get_system_prompt m shell os = a ++ shell_command_type shell ++ b)
          ∧ (∃ a b, get_system_prompt m shell os = a ++ os ++ b)) := by
  constructor
  · intro name ep key p shell os
    rfl
  · intro m shell os hm
    have hd : get_system_prompt m shell os
        = defaultPromptPart1 ++ shell_command_type shell ++ defaultPromptPart2
            ++ os ++ defaultPromptPart3 := by
      cases m with
      | OpenAiGpt4o => rfl
      | OpenAiGpt4oMini => rfl
      | Ollama name => rfl
      | Custom name ep sp key =>
        cases sp with
        | some p => simp at hm
        | none => rfl
    refine ⟨hd,
      ⟨defaultPromptPart1, defaultPromptPart2 ++ os ++ defaultPromptPart3, ?_⟩,
      ⟨defaultPromptPart1 ++ shell_command_type shell ++ defaultPromptPart2,
        defaultPromptPart3, ?_⟩⟩
    · rw [hd]; try simp [String.append_assoc]
    · rw [hd]; try simp [String.append_assoc]

/-- Witness for C9: the override case and the default case at concrete
arguments. -/
theorem c9_system_prompt_witness :
    get_system_prompt (Model.Custom "m" "http://e/" (some "translate to French") none)
        Shell.Zsh "linux"
      = "translate to French"
    ∧ ∃ a b, get_system_prompt Model.OpenAiGpt4oMini Shell.Zsh "linux"
        = a ++ shell_command_type Shell.Zsh ++ b :=
  ⟨c9_system_prompt.1 "m" "http://e/" none "translate to French" Shell.Zsh "linux",
   (c9_system_prompt.2 Model.OpenAiGpt4oMini Shell.Zsh "linux" trivial).2.1⟩

/-- Claim C5 counterexample: the input line " y" does not
case-insensitively equal "y", yet the gate executes the command, because
the code trims surrounding whitespace before comparing. -/
theorem c5_counterexample :
    caseInsensitiveEq " y" "y" = false
    ∧ Event.execute "echo hi"
        ∈ (get_command_from_llm ⟨Model.Ollama "llama3.1", 256⟩ none Shell.Zsh "linux"
            (fun _ _ => Except.ok
              { choices := [{ message := some { content := "echo hi" } }] })
            [] "list files" [" y"]).2 := by
  refine ⟨by decide, ?_⟩
  decide

/-- Claim C5 (amended): in the confirmation gate for a freshly resolved
command, the command is executed — handed to the shell collaborator
unchanged — iff the input line, after trimming surrounding whitespace,
case-insensitively equals "y"; any other line (including the empty line)
declines, with no execution. -/
theorem c5_gate (cfg : Config) (env : Option String) (shell : Shell) (os : String)
    (transport : String → ChatBody → Except String ChatResponse)
    (cache : List (String × String)) (prompt : String) (stdin : List String)
    (command : String) (evs : List Event)
    (h : llm_get_command cfg.model cfg.max_tokens env shell os transport prompt
        = (Except.ok (some command), evs)) :
    ((trimChars (stdin.head?.getD "").data).map Char.toLower = ['y'] →
      (get_command_from_llm cfg env shell os transport cache prompt stdin).2
        = evs ++ [Event.execute command,
                  Event.save (cacheInsert cache prompt command)])
    ∧ (¬ (trimChars (stdin.head?.getD "").data).map Char.toLower = ['y'] →
      (get_command_from_llm cfg env shell os transport cache prompt stdin).2
          = evs ++ [Event.message "Command execution cancelled.",
                    Event.save (cacheInsert cache prompt command)]
        ∧ ∀ c, Event.execute c
            ∉ (get_command_from_llm cfg env shell os transport cache prompt stdin).2) := by
  have hevs := llm_get_command_events cfg.model cfg.max_tokens env shell os
    transport prompt
  rw [h] at hevs
  simp only at hevs
  constructor
  · intro hy
    have hb : isYes (stdin.head?.getD "") = true := by
      simp [isYes, hy]
    simp [get_command_from_llm, h, hb]
  · intro hy
    have hb : isYes (stdin.head?.getD "") = false := by
      simp [isYes, hy]
    have heq : (get_command_from_llm cfg env shell os transport cache prompt stdin).2
        = evs ++ [Event.message "Command execution cancelled.",
                  Event.save (cacheInsert cache prompt command)] := by
      simp [get_command_from_llm, h, hb]
    refine ⟨heq, ?_⟩
    intro c hc
    rw [heq] at hc
    simp at hc
    rcases hevs with he | he <;> rw [he] at hc <;> simp at hc

/-- Witness for C5 (amended): with input line "Y" the command is
executed; with input line "n" it is not. -/
theorem c5_gate_witness :
    (get_command_from_llm ⟨Model.Ollama "llama3.1", 256⟩ none Shell.Zsh "linux"
        (fun _ _ => Except.ok
          { choices := [{ message := some { content := "echo hi" } }] })
        [] "list files" ["Y"]).2
      = [Event.resolve "list files", Event.networkAttempt]
          ++ [Event.execute "echo hi",
              Event.save (cacheInsert [] "list files" "echo hi")] :=
  (c5_gate ⟨Model.Ollama "llama3.1", 256⟩ none Shell.Zsh "linux"
      (fun _ _ => Except.ok
        { choices := [{ message := some { content := "echo hi" } }] })
      [] "list files" ["Y"] "echo hi"
      [Event.resolve "list files", Event.networkAttempt] (by rfl)).1 (by decide)

/-- Claim C6 counterexample: a response with one choice whose message is
absent also yields `Ok(None)`, so `Ok(None)` does not hold exactly when
the response contains no choice. -/
theorem c6_counterexample :
    (llm_get_command (Model.Ollama "llama3.1") 256 none Shell.Zsh "linux"
        (fun _ _ => Except.ok { choices := [{ message := none }] }) "p").1
      = Except.ok none
    ∧ ({ choices := [{ message := none }] } : ChatResponse).choices ≠ [] := by
  refine ⟨by rfl, ?_⟩
  intro h
  simp at h

/-- Claim C6 (amended): with authentication succeeding, a successful
transport yields `Ok` of the first choice's message content; the result
is `Ok(None)` exactly when the response has no choice or its first
choice carries no message; a transport failure yields a `backendError`
wrapping the cause; and the two outcomes are reported to the user with
different messages. -/
theorem c6_response_extraction (m : Model) (maxTokens : Int) (env : Option String)
    (shell : Shell) (os : String) (prompt : String) (key : String)
    (hauth : get_auth m env = Except.ok key) (response : ChatResponse) (e : String) :
    (llm_get_command m maxTokens env shell os (fun _ _ => Except.ok response) prompt).1
        = Except.ok ((response.choices.head?.bind (fun ch => ch.message)).map
            (fun msg => msg.content))
    ∧ ((llm_get_command m maxTokens env shell os (fun _ _ => Except.ok response)
          prompt).1
          = Except.ok none
        ↔ response.choices = []
          ∨ ∃ ch rest, response.choices = ch :: rest ∧ ch.message = none)
    ∧ (llm_get_command m maxTokens env shell os (fun _ _ => Except.error e) prompt).1
        = Except.error (LlmError.backendError e)
    ∧ ∀ (cache : List (String × String)) (stdin : List String),
        (response.choices.head?.bind (fun ch => ch.message) = none →
          Event.message "No command could be generated."
            ∈ (get_command_from_llm ⟨m, maxTokens⟩ env shell os
                (fun _ _ => Except.ok response) cache prompt stdin).2)
        ∧ Event.message ("Error: " ++ e)
            ∈ (get_command_from_llm ⟨m, maxTokens⟩ env shell os
                (fun _ _ => Except.error e) cache prompt stdin).2
        ∧ ("No command could be generated." : String) ≠ "Error: " ++ e := by
  have hok : llm_get_command m maxTokens env shell os (fun _ _ => Except.ok response)
      prompt
      = (Except.ok ((response.choices.head?.bind (fun ch => ch.message)).map
          (fun msg => msg.content)),
         [Event.resolve prompt, Event.networkAttempt]) := by
    simp [llm_get_command, hauth]
  have herr : llm_get_command m maxTokens env shell os (fun _ _ => Except.error e)
      prompt
      = (Except.error (LlmError.backendError e),
         [Event.resolve prompt, Event.networkAttempt]) := by
    simp [llm_get_command, hauth]
  refine ⟨by rw [hok], ?_, by rw [herr], ?_⟩
  · rw [hok]
    simp only [Except.ok.injEq, Option.map_eq_none']
    constructor
    · intro h2
      cases hch : response.choices with
      | nil => exact Or.inl rfl
      | cons ch rest =>
        rw [hch] at h2
        simp at h2
        exact Or.inr ⟨ch, rest, rfl, h2⟩
    · intro h2
      rcases h2 with h2 | ⟨ch, rest, hch, hmsg⟩
      · simp [h2]
      · simp [hch, hmsg]
  · intro cache stdin
    refine ⟨?_, ?_, ?_⟩
    · intro hnone
      simp [get_command_from_llm, hok, hnone]
    · simp [get_command_from_llm, herr]
    · intro heq
      have hd := congrArg String.data heq
      rw [String.data_append] at hd
      have hN : ("No command could be generated." : String).data
          = 'N' :: ("o command could be generated." : String).data := rfl
      have hE : ("Error: " : String).data = 'E' :: ("rror: " : String).data := rfl
      rw [hN, hE] at hd
      simp at hd

/-- Witness for C6 (amended) at the local variant (whose auth is the
fixed placeholder) and a concrete one-choice response. -/
theorem c6_response_extraction_witness :
    (llm_get_command (Model.Ollama "llama3.1") 256 none Shell.Zsh "linux"
        (fun _ _ => Except.ok
          { choices := [{ message := some { content := "ls" } }] }) "p").1
      = Except.ok (some "ls")
    ∧ (llm_get_command (Model.Ollama "llama3.1") 256 none Shell.Zsh "linux"
        (fun _ _ => Except.error "boom") "p").1
      = Except.error (LlmError.backendError "boom") :=
  ⟨((c6_response_extraction (Model.Ollama "llama3.1") 256 none Shell.Zsh "linux" "p"
      "ollama" rfl { choices := [{ message := some { content := "ls" } }] }
      "boom").1).trans (by rfl),
   (c6_response_extraction (Model.Ollama "llama3.1") 256 none Shell.Zsh "linux" "p"
      "ollama" rfl { choices := [{ message := some { content := "ls" } }] }
      "boom").2.2.1⟩

/-- Claim C1 counterexample: with `--disable-cache` and a pre-existing
cache entry for the prompt, a successful resolve overwrites that entry
(and persists it), so the pre-existing entry is not left as before. -/
theorem c1_counterexample :
    cacheLookup (main_with_prompt ⟨Model.Ollama "llama3.1", 256⟩ none Shell.Zsh
        "linux"
        (fun _ _ => Except.ok { choices := [{ message := some { content := "new" } }] })
        true [("p", "old")] "p" ["n"]).1 "p"
      ≠ cacheLookup [("p", "old")] "p" := by
  decide

/-- Claim C1 (amended): with `--disable-cache`, no cache lookup is
performed and the resolve path runs exactly once; but a resolve result
of `Ok(Some(command))` is still inserted into the cache — overwriting
any pre-existing entry for the prompt — and persisted; the cache is left
unchanged only when the resolve result carries no command. -/
theorem c1_disable_cache (cfg : Config) (env : Option String) (shell : Shell)
    (os : String) (transport : String → ChatBody → Except String ChatResponse)
    (cache : List (String × String)) (prompt : String) (stdin : List String) :
    (∀ q, Event.cacheRead q
        ∉ (main_with_prompt cfg env shell os transport true cache prompt stdin).2)
    ∧ ((main_with_prompt cfg env shell os transport true cache prompt stdin).2).filter
          isResolveEvent
        = [Event.resolve prompt]
    ∧ (main_with_prompt cfg env shell os transport true cache prompt stdin).1
        = (match (llm_get_command cfg.model cfg.max_tokens env shell os transport
              prompt).1 with
           | Except.ok (some c) => cacheInsert cache prompt c
           | _ => cache)
    ∧ ∀ c, (llm_get_command cfg.model cfg.max_tokens env shell os transport prompt).1
          = Except.ok (some c) →
        Event.save (cacheInsert cache prompt c)
          ∈ (main_with_prompt cfg env shell os transport true cache prompt stdin).2 := by
  have hmain : main_with_prompt cfg env shell os transport true cache prompt stdin
      = get_command_from_llm cfg env shell os transport cache prompt stdin := by
    simp [main_with_prompt]
  rw [hmain]
  refine ⟨fun q => get_command_from_llm_no_cacheRead cfg env shell os transport cache
      prompt stdin q,
    get_command_from_llm_filter_resolve cfg env shell os transport cache prompt stdin,
    get_command_from_llm_fst cfg env shell os transport cache prompt stdin, ?_⟩
  intro c hc
  rcases hll : llm_get_command cfg.model cfg.max_tokens env shell os transport prompt
    with ⟨r, evs⟩
  rw [hll] at hc
  simp at hc
  subst hc
  simp [get_command_from_llm, hll]

/-- Witness for C1 (amended): a successful resolve under
`--disable-cache` persists the overwritten entry. -/
theorem c1_disable_cache_witness :
    Event.save (cacheInsert [("p", "old")] "p" "new")
      ∈ (main_with_prompt ⟨Model.Ollama "llama3.1", 256⟩ none Shell.Zsh "linux"
          (fun _ _ => Except.ok
            { choices := [{ message := some { content := "new" } }] })
          true [("p", "old")] "p" ["n"]).2 :=
  (c1_disable_cache ⟨Model.Ollama "llama3.1", 256⟩ none Shell.Zsh "linux"
      (fun _ _ => Except.ok { choices := [{ message := some { content := "new" } }] })
      [("p", "old")] "p" ["n"]).2.2.2 "new" (by rfl)

/-- Claim C3 counterexample: a resolve result that is the empty string
is still inserted into the cache, contradicting "an empty-string result
is never inserted". -/
theorem c3_counterexample :
    (get_command_from_llm ⟨Model.Ollama "llama3.1", 256⟩ none Shell.Zsh "linux"
        (fun _ _ => Except.ok { choices := [{ message := some { content := "" } }] })
        [] "p" ["n"]).1
      = [("p", "")] := by
  decide

/-- Claim C3 (amended): on a cache miss or when caching is disabled, the
full resolve path runs exactly once, and the pair (prompt, command) is
inserted into the cache and persisted immediately iff the resolve result
is `Ok(Some(command))` — including when the command is the empty string;
`Ok(None)` and errors insert nothing. -/
theorem c3_insert_iff (cfg : Config) (env : Option String) (shell : Shell)
    (os : String) (transport : String → ChatBody → Except String ChatResponse)
    (cache : List (String × String)) (prompt : String) (stdin : List String)
    (disable : Bool)
    (h : disable = true ∨ cacheLookup cache prompt = none) :
    ((main_with_prompt cfg env shell os transport disable cache prompt stdin).2).filter
          isResolveEvent
        = [Event.resolve prompt]
    ∧ (main_with_prompt cfg env shell os transport disable cache prompt stdin).1
        = (match (llm_get_command cfg.model cfg.max_tokens env shell os transport
              prompt).1 with
           | Except.ok (some c) => cacheInsert cache prompt c
           | _ => cache)
    ∧ ((main_with_prompt cfg env shell os transport disable cache prompt stdin).2).filter
          isSaveEvent
        = (match (llm_get_command cfg.model cfg.max_tokens env shell os transport
              prompt).1 with
           | Except.ok (some c) => [Event.save (cacheInsert cache prompt c)]
           | _ => []) := by
  cases disable with
  | false =>
    rcases h with h | h
    · exact absurd h (by simp)
    · have hmain : main_with_prompt cfg env shell os transport false cache prompt stdin
          = ((get_command_from_llm cfg env shell os transport cache prompt stdin).1,
             Event.cacheRead prompt
               :: (get_command_from_llm cfg env shell os transport cache prompt
                  stdin).2) := by
        simp [main_with_prompt, h]
      rw [hmain]
      refine ⟨?_, get_command_from_llm_fst cfg env shell os transport cache prompt
        stdin, ?_⟩
      · simp only [List.filter_cons]
        simp [isResolveEvent,
          get_command_from_llm_filter_resolve cfg env shell os transport cache prompt
            stdin]
      · simp only [List.filter_cons]
        simp [isSaveEvent,
          get_command_from_llm_filter_save cfg env shell os transport cache prompt
            stdin]
  | true =>
    have hmain : main_with_prompt cfg env shell os transport true cache prompt stdin
        = get_command_from_llm cfg env shell os transport cache prompt stdin := by
      simp [main_with_prompt]
    rw [hmain]
    exact ⟨get_command_from_llm_filter_resolve cfg env shell os transport cache prompt
        stdin,
      get_command_from_llm_fst cfg env shell os transport cache prompt stdin,
      get_command_from_llm_filter_save cfg env shell os transport cache prompt stdin⟩

/-- Witness for C3 (amended): on a concrete cache miss, a non-empty
resolve result is inserted. -/
theorem c3_insert_iff_witness :
    (main_with_prompt ⟨Model.Ollama "llama3.1", 256⟩ none Shell.Zsh "linux"
        (fun _ _ => Except.ok
          { choices := [{ message := some { content := "ls -la" } }] })
        false [] "list files" ["y"]).1
      = cacheInsert [] "list files" "ls -la" :=
  ((c3_insert_iff ⟨Model.Ollama "llama3.1", 256⟩ none Shell.Zsh "linux"
      (fun _ _ => Except.ok
        { choices := [{ message := some { content := "ls -la" } }] })
      [] "list files" ["y"] false (Or.inr (by rfl))).2.1).trans (by rfl)

/-- Claim C7: declining a cached command and confirming invalidation
removes exactly that prompt's key (and no other entry), persists the
removal, and then triggers exactly one fresh resolve for the same
prompt. -/
theorem c7_invalidate (cfg : Config) (env : Option String) (shell : Shell)
    (os : String) (transport : String → ChatBody → Except String ChatResponse)
    (cache : List (String × String)) (prompt : String) (stdin : List String)
    (c : String)
    (hc : cacheLookup cache prompt = some c)
    (h1 : isYes (stdin.head?.getD "") = false)
    (h2 : isYes (stdin[1]?.getD "") = true) :
    Event.save (cacheRemove cache prompt)
        ∈ (main_with_prompt cfg env shell os transport false cache prompt stdin).2
    ∧ cacheLookup (cacheRemove cache prompt) prompt = none
    ∧ (∀ q, q ≠ prompt →
        cacheLookup (cacheRemove cache prompt) q = cacheLookup cache q)
    ∧ ((main_with_prompt cfg env shell os transport false cache prompt stdin).2).filter
          isResolveEvent
        = [Event.resolve prompt] := by
  have hmain : main_with_prompt cfg env shell os transport false cache prompt stdin
      = ((get_command_from_llm cfg env shell os transport (cacheRemove cache prompt)
            prompt (stdin.drop 2)).1,
         Event.cacheRead prompt :: Event.save (cacheRemove cache prompt)
           :: (get_command_from_llm cfg env shell os transport
              (cacheRemove cache prompt) prompt (stdin.drop 2)).2) := by
    simp [main_with_prompt, hc, h1, h2]
  rw [hmain]
  refine ⟨by simp, cacheRemove_lookup_self cache prompt,
    fun q hq => cacheRemove_lookup_other cache prompt q hq, ?_⟩
  simp only [List.filter_cons]
  simp [isResolveEvent,
    get_command_from_llm_filter_resolve cfg env shell os transport
      (cacheRemove cache prompt) prompt (stdin.drop 2)]

/-- Witness for C7 at a concrete one-entry cache, declining then
confirming invalidation. -/
theorem c7_invalidate_witness :
    ((main_with_prompt ⟨Model.Ollama "llama3.1", 256⟩ none Shell.Zsh "linux"
        (fun _ _ => Except.error "network down") false [("p", "c")] "p"
        ["n", "y"]).2).filter isResolveEvent
      = [Event.resolve "p"] :=
  (c7_invalidate ⟨Model.Ollama "llama3.1", 256⟩ none Shell.Zsh "linux"
    (fun _ _ => Except.error "network down") [("p", "c")] "p" ["n", "y"] "c"
    (by decide) (by decide) (by decide)).2.2.2

/-- Claim C8: declining a cached command and then declining invalidation
leaves the whole cache (in particular that prompt's entry) unchanged,
with no resolve, no network attempt and no persistence — only the cache
lookup and the cancellation message happen. -/
theorem c8_decline_keep (cfg : Config) (env : Option String) (shell : Shell)
    (os : String) (transport : String → ChatBody → Except String ChatResponse)
    (cache : List (String × String)) (prompt : String) (stdin : List String)
    (c : String)
    (hc : cacheLookup cache prompt = some c)
    (h1 : isYes (stdin.head?.getD "") = false)
    (h2 : isYes (stdin[1]?.getD "") = false) :
    main_with_prompt cfg env shell os transport false cache prompt stdin
      = (cache, [Event.cacheRead prompt,
                 Event.message "Command execution cancelled."]) := by
  simp [main_with_prompt, hc, h1, h2]

/-- Witness for C8 at a concrete one-entry cache, declining twice. -/
theorem c8_decline_keep_witness :
    main_with_prompt ⟨Model.Ollama "llama3.1", 256⟩ none Shell.Zsh "linux"
        (fun _ _ => Except.error "unreachable") false [("p", "c")] "p" ["n", "n"]
      = ([("p", "c")], [Event.cacheRead "p",
                        Event.message "Command execution cancelled."]) :=
  c8_decline_keep ⟨Model.Ollama "llama3.1", 256⟩ none Shell.Zsh "linux"
    (fun _ _ => Except.error "unreachable") [("p", "c")] "p" ["n", "n"] "c"
    (by decide) (by decide) (by decide)

end LlmTerm
